import Mathlib

/-!
Shallow embedding of the Norko GraphQL API product layer (src/server.js):
the raw scraped data model, the normalizer a.k.a. transformProduct, the
startup loader of productsData, and the query resolvers.  JavaScript
field accesses that can throw a TypeError on a missing object are
modelled with Option, where a none anywhere makes the whole operation
return none.  JavaScript numbers holding prices and weights are
modelled as rationals, wattage and stock as integers.
-/

namespace Norko

/-- A rich-text content block, collapsing a raw record's
components.FIELD.content object (html plus plainText). -/
structure Content where
  html : String
  plainText : String
deriving DecidableEq, Repr

/-- One entry of components.specifications.chunks; every field of a chunk
may be absent in the scraped data. -/
structure SpecChunk where
  wattage : Option Int
  dimensions : Option String
  weight : Option Rat
deriving DecidableEq, Repr

/-- One entry of a raw variant's priceVariants array. -/
structure PriceVariant where
  currency : String
deriving DecidableEq, Repr

/-- A product image record; transformProduct passes images through
unchanged. -/
structure ProductImage where
  url : String
  altText : String
deriving DecidableEq, Repr

/-- A raw variant as found in the scraped data; isDefault may be absent,
which JavaScript reads as undefined (falsy). -/
structure RawVariant where
  name : String
  sku : String
  price : Rat
  priceVariants : List PriceVariant
  stock : Int
  isDefault : Option Bool
deriving DecidableEq, Repr

/-- The components object of a raw record.  A none marks a broken access
chain: reading through it in the JavaScript source throws a TypeError
(for example product.components.specifications.chunks with specifications
absent).  The specifications field collapses
components.specifications.chunks, description and features collapse
components.FIELD.content, and productImages is an Option at the
productImages level and again at the images level, whose absence the
source guards with a fallback to the empty array. -/
structure RawComponents where
  description : Option Content
  specifications : Option (List SpecChunk)
  features : Option Content
  productImages : Option (Option (List ProductImage))
deriving DecidableEq, Repr

/-- A raw scraped product record, one element of productsData. -/
structure RawProduct where
  id : String
  name : String
  path : String
  category : String
  components : RawComponents
  variants : List RawVariant
deriving DecidableEq, Repr

/-- The specifications object of the canonical GraphQL Product type. -/
structure CanonSpecs where
  wattage : Int
  dimensions : String
  weight : Rat
deriving DecidableEq, Repr

/-- The ProductVariant object of the GraphQL schema. -/
structure CanonVariant where
  id : String
  name : String
  sku : String
  price : Rat
  currency : String
  stock : Int
  isDefault : Bool
deriving DecidableEq, Repr

/-- The canonical GraphQL Product object produced by transformProduct. -/
structure CanonicalProduct where
  id : String
  name : String
  path : String
  category : String
  description : Content
  specifications : CanonSpecs
  features : Content
  images : List ProductImage
  variants : List CanonVariant
  price : Rat
  currency : String
deriving DecidableEq, Repr

/-- JavaScript s OR d for an optional string: an absent or empty string is
falsy, so the default wins. -/
def jsOrStr : Option String → String → String
  | none, d => d
  | some s, d => if s = "" then d else s

/-- The expression product.variants[0]?.price OR 0 from the source.  When
the first variant's price is 0 the JavaScript OR also yields 0, so taking
the head price directly is extensionally the same. -/
def rawPrice (p : RawProduct) : Rat :=
  match p.variants with
  | [] => 0
  | v :: _ => v.price

/-- The expression chunks[0]?.wattage OR 0, applied once the chunks array
itself has been reached. -/
def rawWattage (chunks : List SpecChunk) : Int :=
  ((chunks.head?).bind SpecChunk.wattage).getD 0

/-- transformProduct (src/server.js lines 188 to 222).  Returns none
exactly when the JavaScript original would throw a TypeError while
reading a missing components block. -/
def transformProduct? (product : RawProduct) : Option CanonicalProduct := do
  let chunks ← product.components.specifications
  let specs : Option SpecChunk := chunks.head?
  let desc ← product.components.description
  let feats ← product.components.features
  let imagesField ← product.components.productImages
  pure
    { id := product.id
      name := product.name
      path := product.path
      category := product.category
      description := { html := desc.html, plainText := desc.plainText }
      specifications :=
        { wattage := (specs.bind SpecChunk.wattage).getD 0
          dimensions := jsOrStr (specs.bind SpecChunk.dimensions) "Unknown"
          weight := (specs.bind SpecChunk.weight).getD 0 }
      features := { html := feats.html, plainText := feats.plainText }
      images := imagesField.getD []
      variants := product.variants.enum.map fun iv =>
        { id := product.id ++ "-variant-" ++ toString iv.1
          name := iv.2.name
          sku := iv.2.sku
          price := iv.2.price
          currency := jsOrStr ((iv.2.priceVariants.head?).map PriceVariant.currency) "GBP"
          stock := iv.2.stock
          isDefault := iv.2.isDefault.getD false }
      price := rawPrice product
      currency :=
        jsOrStr (((product.variants.head?).bind fun v => v.priceVariants.head?).map
          PriceVariant.currency) "GBP" }

/-- generateSampleProducts (src/server.js lines 225 to 267), the one-element
fallback catalog. -/
def generateSampleProducts : List RawProduct :=
  [{ id := "sample-panel-heater"
     name := "Sample Infrared Panel Heater"
     path := "/infrared-heaters/panel-heaters/sample-panel-heater"
     category := "Panel Heaters"
     components :=
       { description := some
           { html := "<p>High-quality infrared panel heater for efficient heating.</p>"
             plainText := "High-quality infrared panel heater for efficient heating." }
         specifications := some
           [{ wattage := some 900
              dimensions := some "1000mm x 800mm"
              weight := some (8.5 : Rat) }]
         features := some
           { html := "<ul><li>Energy efficient</li><li>Easy installation</li></ul>"
             plainText := "Energy efficient, Easy installation" }
         productImages := some (some []) }
     variants :=
       [{ name := "900W"
          sku := "SAM-900W"
          price := (299.99 : Rat)
          priceVariants := [{ currency := "GBP" }]
          stock := 10
          isDefault := some true }] }]

/-- Outcome of reading and parsing crystallize-products.json at startup
(src/server.js lines 27 to 38): either the read or the JSON parse threw,
or parsing produced an object whose products field may be absent. -/
inductive LoadResult where
  | failure : LoadResult
  | success : Option (List RawProduct) → LoadResult
deriving DecidableEq

/-- The module initialisation of productsData: on a thrown error the catch
block installs generateSampleProducts; otherwise the value of
parsedData.products OR the empty array. -/
def loadProducts : LoadResult → List RawProduct
  | .failure => generateSampleProducts
  | .success ps => ps.getD []

/-- JavaScript truthiness of an optional number field: absent or zero is
falsy. -/
def ratTruthy : Option Rat → Bool
  | none => false
  | some x => x != 0

/-- JavaScript truthiness of an optional integer field: absent or zero is
falsy. -/
def intTruthy : Option Int → Bool
  | none => false
  | some x => x != 0

/-- JavaScript truthiness of an optional string field: absent or empty is
falsy. -/
def strTruthy : Option String → Bool
  | none => false
  | some s => s != ""

/-- The JavaScript toLowerCase() conversion, as a character-wise map over
the string's characters. -/
def lowerStr (s : String) : String := ⟨s.data.map Char.toLower⟩

/-- The JavaScript haystack.includes(needle) substring test. -/
def strIncludes (haystack needle : String) : Bool :=
  decide (needle.data <:+: haystack.data)

/-- The GraphQL ProductFilter input object; every field is optional. -/
structure ProductFilter where
  category : Option String := none
  minPrice : Option Rat := none
  maxPrice : Option Rat := none
  minWattage : Option Int := none
  maxWattage : Option Int := none
deriving DecidableEq, Repr

/-- The category filter predicate of the products resolver:
p.category.toLowerCase().includes(filter.category.toLowerCase()). -/
def categoryPred (cat : String) (p : RawProduct) : Bool :=
  strIncludes (lowerStr p.category) (lowerStr cat)

/-- The price filter predicate of the products resolver: each bound is
enforced only when it is truthy. -/
def pricePred (f : ProductFilter) (p : RawProduct) : Bool :=
  (!ratTruthy f.minPrice || decide (f.minPrice.getD 0 ≤ rawPrice p)) &&
  (!ratTruthy f.maxPrice || decide (rawPrice p ≤ f.maxPrice.getD 0))

/-- The wattage filter predicate of the products resolver.  Reading
p.components.specifications.chunks throws when specifications is absent,
hence the Option result. -/
def wattagePred? (f : ProductFilter) (p : RawProduct) : Option Bool := do
  let chunks ← p.components.specifications
  pure ((!intTruthy f.minWattage || decide (f.minWattage.getD 0 ≤ rawWattage chunks)) &&
        (!intTruthy f.maxWattage || decide (rawWattage chunks ≤ f.maxWattage.getD 0)))

/-- Array.prototype.filter with a predicate that may throw: the first none
aborts the whole call, exactly as a TypeError escaping the callback
aborts the JavaScript filter. -/
def filterSome (pred : α → Option Bool) : List α → Option (List α)
  | [] => some []
  | a :: as => do
    let b ← pred a
    let rest ← filterSome pred as
    pure (if b then a :: rest else rest)

/-- resolvers.Query.products (src/server.js lines 110 to 138): optional
category, price-range and wattage-range stages, each gated on the
truthiness of its filter fields, then slice(0, first) and
transformProduct over the survivors. -/
def productsQuery (data : List RawProduct) (first : Nat) (filter : Option ProductFilter) :
    Option (List CanonicalProduct) := do
  let afterCategory :=
    match filter with
    | none => data
    | some f =>
      if strTruthy f.category then data.filter (categoryPred (f.category.getD "")) else data
  let afterPrice :=
    match filter with
    | none => afterCategory
    | some f =>
      if ratTruthy f.minPrice || ratTruthy f.maxPrice then afterCategory.filter (pricePred f)
      else afterCategory
  let afterWattage ←
    match filter with
    | none => some afterPrice
    | some f =>
      if intTruthy f.minWattage || intTruthy f.maxWattage then
        filterSome (wattagePred? f) afterPrice
      else some afterPrice
  (afterWattage.take first).mapM transformProduct?

/-- First-occurrence deduplication: the behaviour of spreading
new Set(array) back into an array. -/
def setDedup : List String → List String
  | [] => []
  | a :: l => a :: setDedup (l.filter (fun b => b != a))
termination_by l => l.length
decreasing_by
  simp only [List.length_cons]
  exact Nat.lt_succ_of_le (List.length_filter_le _ l)

/-- resolvers.Query.categories (src/server.js lines 145 to 148): spread
new Set(productsData.map(p => p.category)) into an array, then sort it
ascending. -/
def categoriesQuery (data : List RawProduct) : List String :=
  List.insertionSort (· ≤ ·) (setDedup (data.map RawProduct.category))

/-- The callback of resolvers.Query.searchProducts.  JavaScript OR
short-circuits, so the description block is only dereferenced (and can
only throw) when the name did not already match. -/
def searchPred? (searchTerm : String) (p : RawProduct) : Option Bool :=
  if strIncludes (lowerStr p.name) searchTerm then some true
  else
    match p.components.description with
    | none => none
    | some desc =>
      some (strIncludes (lowerStr desc.plainText) searchTerm ||
            strIncludes (lowerStr p.category) searchTerm)

/-- resolvers.Query.searchProducts (src/server.js lines 157 to 165). -/
def searchProducts (data : List RawProduct) (query : String) :
    Option (List CanonicalProduct) := do
  let searchTerm := lowerStr query
  let filtered ← filterSome (searchPred? searchTerm) data
  filtered.mapM transformProduct?

/-- The predicate of resolvers.Query.productsByPriceRange: inclusive
comparison of variants[0]?.price OR 0 against both bounds. -/
def priceInRange (minPrice maxPrice : Rat) (p : RawProduct) : Bool :=
  decide (minPrice ≤ rawPrice p) && decide (rawPrice p ≤ maxPrice)

/-- resolvers.Query.productsByPriceRange (src/server.js lines 167 to 173). -/
def productsByPriceRange (data : List RawProduct) (minPrice maxPrice : Rat) :
    Option (List CanonicalProduct) :=
  (data.filter (priceInRange minPrice maxPrice)).mapM transformProduct?

end Norko

namespace Norko

/-- A fully populated components block used by concrete test records. -/
def cxComponents : RawComponents :=
  { description := some { html := "<p>d</p>", plainText := "Quiet infrared heat" }
    specifications := some [{ wattage := some 600, dimensions := some "90x60", weight := some 7 }]
    features := some { html := "<p>f</p>", plainText := "f" }
    productImages := some (some []) }

/-- First variant of the flagged-default test record: not flagged, price
100, currency EUR. -/
def cxVarA : RawVariant :=
  { name := "A", sku := "A1", price := 100, priceVariants := [{ currency := "EUR" }],
    stock := 1, isDefault := some false }

/-- Second variant of the flagged-default test record: flagged as default,
price 200, currency USD. -/
def cxVarB : RawVariant :=
  { name := "B", sku := "B2", price := 200, priceVariants := [{ currency := "USD" }],
    stock := 2, isDefault := some true }

/-- A well-formed record whose second variant, not the first, carries
isDefault = true. -/
def cxFlagged : RawProduct :=
  { id := "p1", name := "Heater One", path := "/p1", category := "Panel Heaters"
    components := cxComponents
    variants := [cxVarA, cxVarB] }

end Norko

namespace Norko

/-- C1 counterexample: on cxFlagged the variant at position 1 (not the
first) carries isDefault = true and price 200 with currency "USD", yet
the normalized product's price is 100 and its currency "EUR", those of
the first variant; so price and currency do not come from the flagged
default variant. -/
theorem c1_counterexample_price_ignores_flag :
    (cxFlagged.variants.map RawVariant.isDefault = [some false, some true]) ∧
    ((cxFlagged.variants.get? 1).map RawVariant.price = some 200) ∧
    (transformProduct? cxFlagged).map CanonicalProduct.price ≠ some 200 ∧
    (transformProduct? cxFlagged).map CanonicalProduct.price = some 100 ∧
    (transformProduct? cxFlagged).map CanonicalProduct.currency = some "EUR" := by
  decide

/-- C1 amended: for every raw record with at least one variant that
normalizes successfully, the product's price equals the first variant's
price and its currency equals the first entry of the first variant's
priceVariants (or "GBP" when that entry is absent or empty); the
isDefault flags play no role. -/
theorem c1_amended_price_from_first_variant (r : RawProduct) (v : RawVariant)
    (vs : List RawVariant) (p : CanonicalProduct)
    (hv : r.variants = v :: vs) (hp : transformProduct? r = some p) :
    p.price = v.price ∧
    p.currency = jsOrStr ((v.priceVariants.head?).map PriceVariant.currency) "GBP" := by
  cases hs : r.components.specifications with
  | none => simp [transformProduct?, hs] at hp
  | some chunks =>
    cases hd : r.components.description with
    | none => simp [transformProduct?, hs, hd] at hp
    | some desc =>
      cases hf : r.components.features with
      | none => simp [transformProduct?, hs, hd, hf] at hp
      | some feats =>
        cases hi : r.components.productImages with
        | none => simp [transformProduct?, hs, hd, hf, hi] at hp
        | some imgs =>
          simp only [transformProduct?, hs, hd, hf, hi, Option.bind_eq_bind,
            Option.some_bind, Option.pure_def, Option.some.injEq] at hp
          subst hp
          simp [rawPrice, hv]

/-- C1 amended witness: instantiated on cxFlagged. -/
theorem c1_amended_witness :
    (transformProduct? cxFlagged).map CanonicalProduct.price = some 100 ∧
    (transformProduct? cxFlagged).map CanonicalProduct.currency = some "EUR" := by
  cases hp : transformProduct? cxFlagged with
  | none => exact absurd hp (by decide)
  | some p =>
    have h := c1_amended_price_from_first_variant cxFlagged cxVarA [cxVarB] p rfl hp
    refine ⟨?_, ?_⟩ <;> simp [h.1, h.2, cxVarA, jsOrStr]

/-- A record whose components carry no specifications block at all; the
other blocks are present. -/
def cxNoSpecs : RawProduct :=
  { id := "p2", name := "Heater Two", path := "/p2", category := "Patio Heaters"
    components :=
      { description := some { html := "<p>d2</p>", plainText := "d2" }
        specifications := none
        features := some { html := "<p>f2</p>", plainText := "f2" }
        productImages := some (some []) }
    variants := [cxVarA] }

/-- C2 counterexample: transformProduct is not total.  On a raw record
lacking the specifications block entirely the JavaScript source throws a
TypeError while reading components.specifications.chunks, modelled here
as a none result; in particular no normalized product with
specifications.wattage = 0 is produced (and the canonical shape has no
mounting field at all). -/
theorem c2_counterexample_throws_without_specs :
    cxNoSpecs.components.specifications = none ∧
    transformProduct? cxNoSpecs = none := by
  decide

/-- A record whose specifications block is present but holds an empty
chunks array. -/
def cxEmptyChunks : RawProduct :=
  { id := "p3", name := "Heater Three", path := "/p3", category := "Panel Heaters"
    components :=
      { description := some { html := "<p>d3</p>", plainText := "d3" }
        specifications := some []
        features := some { html := "<p>f3</p>", plainText := "f3" }
        productImages := some (some []) }
    variants := [cxVarA] }

/-- C2 amended: transformProduct throws on a record whose components lack
the specifications block, so it is not total; the defaulting the claim
describes applies one level further down: whenever the specifications
block is present but its chunk list is empty (or its first chunk lacks
the fields), the normalized product has specifications.wattage = 0,
dimensions "Unknown" and weight 0.  The canonical shape carries no
mounting field. -/
theorem c2_amended_empty_chunks_defaults (r : RawProduct) (p : CanonicalProduct)
    (hs : r.components.specifications = some [])
    (hp : transformProduct? r = some p) :
    p.specifications.wattage = 0 ∧ p.specifications.dimensions = "Unknown" ∧
    p.specifications.weight = 0 := by
  cases hd : r.components.description with
  | none => simp [transformProduct?, hs, hd] at hp
  | some desc =>
    cases hf : r.components.features with
    | none => simp [transformProduct?, hs, hd, hf] at hp
    | some feats =>
      cases hi : r.components.productImages with
      | none => simp [transformProduct?, hs, hd, hf, hi] at hp
      | some imgs =>
        simp only [transformProduct?, hs, hd, hf, hi, Option.bind_eq_bind,
          Option.some_bind, Option.pure_def, Option.some.injEq] at hp
        subst hp
        simp [jsOrStr]

/-- C2 amended witness: instantiated on cxEmptyChunks. -/
theorem c2_amended_witness :
    (transformProduct? cxEmptyChunks).map (fun p => p.specifications.dimensions) =
      some "Unknown" := by
  cases hp : transformProduct? cxEmptyChunks with
  | none => exact absurd hp (by decide)
  | some p =>
    have h := c2_amended_empty_chunks_defaults cxEmptyChunks p rfl hp
    simp [h.2.1]

/-- C3 counterexample: when the data file parses successfully but the
parsed object has no products field (or an empty one), the catch block
never runs, so the catalog stays empty instead of being replaced by the
generated sample catalog. -/
theorem c3_counterexample_empty_parse_stays_empty :
    loadProducts (LoadResult.success none) = [] ∧
    loadProducts (LoadResult.success (some [])) = [] := by
  decide

/-- C3 amended: the loader never raises, and when the source file is
missing or unparseable the thrown error is absorbed and the non-empty
generated sample catalog is installed; but a source that parses to a
shape whose record list is absent or empty yields exactly that empty
record list, which is not replaced. -/
theorem c3_amended_loader_fallback (ps : List RawProduct) :
    loadProducts LoadResult.failure = generateSampleProducts ∧
    generateSampleProducts ≠ [] ∧
    loadProducts (LoadResult.success (some ps)) = ps ∧
    loadProducts (LoadResult.success none) = [] := by
  exact ⟨rfl, by decide, rfl, rfl⟩

end Norko

namespace Norko

/-- If a throwing predicate yields some false on every element, the
JavaScript-style filter returns the empty list without throwing. -/
theorem filterSome_all_false (pred : α → Option Bool) (l : List α)
    (h : ∀ a ∈ l, pred a = some false) : filterSome pred l = some [] := by
  induction l with
  | nil => rfl
  | cons a as ih =>
    have ha := h a (List.mem_cons_self a as)
    have hrest := ih (fun b hb => h b (List.mem_cons_of_mem a hb))
    simp [filterSome, ha, hrest]

/-- When the throwing predicate agrees with a total one on every element,
the JavaScript-style filter is the ordinary filter. -/
theorem filterSome_eq_filter (pred : α → Option Bool) (q : α → Bool) (l : List α)
    (h : ∀ a ∈ l, pred a = some (q a)) : filterSome pred l = some (l.filter q) := by
  induction l with
  | nil => rfl
  | cons a as ih =>
    have ha := h a (List.mem_cons_self a as)
    have hrest := ih (fun b hb => h b (List.mem_cons_of_mem a hb))
    by_cases hq : q a = true
    · simp [filterSome, ha, hrest, List.filter_cons, hq]
    · simp only [Bool.not_eq_true] at hq
      simp [filterSome, ha, hrest, List.filter_cons, hq]

/-- A price range whose two bounds are both truthy (so the code enforces
both) and inverted, min greater than max. -/
def priceRangeMalformed (f : ProductFilter) : Prop :=
  ratTruthy f.minPrice = true ∧ ratTruthy f.maxPrice = true ∧
  f.maxPrice.getD 0 < f.minPrice.getD 0

/-- A wattage range whose two bounds are both truthy and inverted. -/
def wattageRangeMalformed (f : ProductFilter) : Prop :=
  intTruthy f.minWattage = true ∧ intTruthy f.maxWattage = true ∧
  f.maxWattage.getD 0 < f.minWattage.getD 0

/-- Under an enforced inverted price range no record passes the price
predicate. -/
theorem pricePred_eq_false_of_malformed (f : ProductFilter) (p : RawProduct)
    (h : priceRangeMalformed f) : pricePred f p = false := by
  rcases h with ⟨h1, h2, h3⟩
  have hne : ¬ (f.minPrice.getD 0 ≤ rawPrice p ∧ rawPrice p ≤ f.maxPrice.getD 0) := by
    rintro ⟨ha, hb⟩
    exact absurd (le_trans ha hb) (not_le.mpr h3)
  simp only [pricePred, h1, h2, Bool.not_true, Bool.false_or]
  rw [← Bool.decide_and]
  exact decide_eq_false hne

/-- Under an enforced inverted wattage range the wattage predicate
evaluates, without throwing, to false on any record that has a
specifications block. -/
theorem wattagePred_eq_some_false_of_malformed (f : ProductFilter) (p : RawProduct)
    (h : wattageRangeMalformed f) (hs : (p.components.specifications).isSome = true) :
    wattagePred? f p = some false := by
  obtain ⟨chunks, hc⟩ := Option.isSome_iff_exists.mp hs
  rcases h with ⟨h1, h2, h3⟩
  have hne : ¬ (f.minWattage.getD 0 ≤ rawWattage chunks ∧
      rawWattage chunks ≤ f.maxWattage.getD 0) := by
    rintro ⟨ha, hb⟩
    exact absurd (le_trans ha hb) (not_le.mpr h3)
  simp only [wattagePred?, hc, Option.bind_eq_bind, Option.some_bind, Option.pure_def,
    h1, h2, Bool.not_true, Bool.false_or]
  rw [← Bool.decide_and]
  exact congrArg some (decide_eq_false hne)

/-- The filter exercised by the C4 counterexample: an inverted price range
whose upper bound is 0. -/
def c4Filter : ProductFilter := { minPrice := some 5, maxPrice := some 0 }

/-- C4 counterexample: with the malformed price range min 5 greater than
max 0 over a one-product catalog whose product is priced 100, the list
operation returns that product rather than the empty sequence, because
the zero upper bound is falsy and is skipped. -/
theorem c4_counterexample_inverted_range_with_zero_bound :
    c4Filter.minPrice = some 5 ∧ c4Filter.maxPrice = some 0 ∧ (0 : Rat) < 5 ∧
    (productsQuery [cxFlagged] 20 (some c4Filter) ≠ some []) ∧
    (productsQuery [cxFlagged] 20 (some c4Filter)).isSome = true := by
  decide

/-- C4 amended: the list operation returns the empty sequence for a
malformed range provided both bounds of that range are truthy (nonzero):
either an inverted price range, or an inverted wattage range over a
catalog whose records all carry a specifications block (without which
the wattage predicate throws).  A bound equal to 0 is falsy and is
skipped, so an inverted range with a zero bound can return products. -/
theorem c4_amended_inverted_range_empty (data : List RawProduct) (first : Nat)
    (f : ProductFilter)
    (h : priceRangeMalformed f ∨
      (wattageRangeMalformed f ∧ ∀ r ∈ data, (r.components.specifications).isSome = true)) :
    productsQuery data first (some f) = some [] := by
  rcases h with hpm | ⟨hwm, hall⟩
  · have hgate : (ratTruthy f.minPrice || ratTruthy f.maxPrice) = true := by
      rw [hpm.1]; rfl
    have hfilter : ∀ (l : List RawProduct), l.filter (pricePred f) = [] := fun l =>
      List.filter_eq_nil_iff.mpr
        (fun a _ => by simp [pricePred_eq_false_of_malformed f a hpm])
    simp only [productsQuery, hgate, if_true, hfilter]
    cases hw : (intTruthy f.minWattage || intTruthy f.maxWattage) <;>
      simp [filterSome] <;> decide
  · have hw : (intTruthy f.minWattage || intTruthy f.maxWattage) = true := by
      rw [hwm.1]; rfl
    have key : ∀ L : List RawProduct, (∀ r ∈ L, r ∈ data) →
        (filterSome (wattagePred? f) L) >>=
          (fun afterWattage => (afterWattage.take first).mapM transformProduct?) = some [] := by
      intro L hsub
      rw [filterSome_all_false _ _
        (fun a ha => wattagePred_eq_some_false_of_malformed f a hwm (hall a (hsub a ha)))]
      simp
      decide
    simp only [productsQuery, hw, if_true]
    split_ifs <;>
      · apply key
        intro r hr
        simp only [List.mem_filter] at hr
        tauto

/-- C4 amended witness: an inverted price range with nonzero bounds over
the one-product catalog returns the empty sequence. -/
theorem c4_amended_witness :
    productsQuery [cxFlagged] 20 (some { minPrice := some 5, maxPrice := some 2 }) = some [] :=
  c4_amended_inverted_range_empty [cxFlagged] 20 _ (Or.inl ⟨by decide, by decide, by decide⟩)

end Norko

namespace Norko

/-- The search predicate read off the source for records that can be
tested without throwing: the lowercased query against the lowercased
name, description plainText and category. -/
def searchMatches (searchTerm : String) (p : RawProduct) : Bool :=
  strIncludes (lowerStr p.name) searchTerm ||
  (match p.components.description with
   | none => false
   | some desc => strIncludes (lowerStr desc.plainText) searchTerm) ||
  strIncludes (lowerStr p.category) searchTerm

/-- On a record with a description block the throwing search predicate
agrees with the total one. -/
theorem searchPred_eq_of_isSome (t : String) (p : RawProduct)
    (h : (p.components.description).isSome = true) :
    searchPred? t p = some (searchMatches t p) := by
  obtain ⟨d, hd⟩ := Option.isSome_iff_exists.mp h
  by_cases hn : strIncludes (lowerStr p.name) t = true
  · simp [searchPred?, searchMatches, hn, hd]
  · simp only [Bool.not_eq_true] at hn
    simp [searchPred?, searchMatches, hn, hd]

/-- C5: search returns exactly the normalized images of the products whose
lowercased name, lowercased description plainText or lowercased category
contains the lowercased query as a substring (logical OR of the three
case-insensitive tests), in catalog order; stated for catalogs whose
records all carry a description block, since the match test dereferences
it for any record whose name does not already match. -/
theorem c5_search_substring_three_fields (data : List RawProduct) (query : String)
    (h : ∀ r ∈ data, (r.components.description).isSome = true) :
    searchProducts data query =
      (data.filter (searchMatches (lowerStr query))).mapM transformProduct? := by
  have hfs := filterSome_eq_filter (searchPred? (lowerStr query))
    (searchMatches (lowerStr query)) data
    (fun a ha => searchPred_eq_of_isSome (lowerStr query) a (h a ha))
  simp only [searchProducts, hfs, Option.bind_eq_bind, Option.some_bind]

/-- C5 witness: on the one-product catalog the uppercase query "PANEL"
matches through the category "Panel Heaters" and returns one product. -/
theorem c5_search_witness :
    searchProducts [cxFlagged] "PANEL" =
      ([cxFlagged].filter (searchMatches (lowerStr "PANEL"))).mapM transformProduct? ∧
    (searchProducts [cxFlagged] "PANEL").map List.length = some 1 :=
  ⟨c5_search_substring_three_fields [cxFlagged] "PANEL" (by decide), by decide⟩

/-- Membership is unchanged by the Set-style first-occurrence
deduplication. -/
theorem mem_setDedup (l : List String) (c : String) : c ∈ setDedup l ↔ c ∈ l := by
  induction l using setDedup.induct with
  | case1 => simp [setDedup]
  | case2 a l ih =>
    rw [setDedup]
    simp only [List.mem_cons, ih, List.mem_filter, bne_iff_ne, ne_eq]
    constructor
    · rintro (rfl | ⟨hc, _⟩)
      · exact Or.inl rfl
      · exact Or.inr hc
    · rintro (rfl | hc)
      · exact Or.inl rfl
      · by_cases hca : c = a
        · exact Or.inl hca
        · exact Or.inr ⟨hc, hca⟩

/-- The Set-style deduplication returns a duplicate-free list. -/
theorem setDedup_nodup (l : List String) : (setDedup l).Nodup := by
  induction l using setDedup.induct with
  | case1 => simp [setDedup]
  | case2 a l ih =>
    rw [setDedup]
    refine List.nodup_cons.mpr ⟨?_, ih⟩
    intro hmem
    rw [mem_setDedup] at hmem
    have hne := (List.mem_filter.mp hmem).2
    simp at hne

/-- C6: for every catalog the categories operation returns a
duplicate-free list, sorted ascending in the lexicographic order on
strings, containing exactly the category strings of the catalog's
records (deduplication is case-sensitive: distinct strings stay
distinct). -/
theorem c6_categories_nodup_sorted (data : List RawProduct) :
    (categoriesQuery data).Nodup ∧
    List.Sorted (· ≤ ·) (categoriesQuery data) ∧
    (∀ c, c ∈ categoriesQuery data ↔ c ∈ data.map RawProduct.category) := by
  refine ⟨?_, ?_, ?_⟩
  · exact ((List.perm_insertionSort _ _).nodup_iff).mpr (setDedup_nodup _)
  · exact List.sorted_insertionSort _ _
  · intro c
    rw [categoriesQuery, List.mem_insertionSort, mem_setDedup]

/-- The normalized product's price field always equals the compared raw
price, the first variant's price or 0 with no variants. -/
theorem transformProduct_price_eq (r : RawProduct) (p : CanonicalProduct)
    (hp : transformProduct? r = some p) : p.price = rawPrice r := by
  cases hs : r.components.specifications with
  | none => simp [transformProduct?, hs] at hp
  | some chunks =>
    cases hd : r.components.description with
    | none => simp [transformProduct?, hs, hd] at hp
    | some desc =>
      cases hf : r.components.features with
      | none => simp [transformProduct?, hs, hd, hf] at hp
      | some feats =>
        cases hi : r.components.productImages with
        | none => simp [transformProduct?, hs, hd, hf, hi] at hp
        | some imgs =>
          simp only [transformProduct?, hs, hd, hf, hi, Option.bind_eq_bind,
            Option.some_bind, Option.pure_def, Option.some.injEq] at hp
          subst hp
          rfl

/-- C7: the byPriceRange operation filters by inclusive comparison of the
product price (the first variant's price, 0 with no variants) against
both bounds: a record is kept exactly when min is at most its price and
its price is at most max, so a record priced exactly at a bound is kept
and one strictly outside is dropped; and the normalized product's price
equals the compared price. -/
theorem c7_price_range_inclusive (data : List RawProduct) (minPrice maxPrice : Rat)
    (r : RawProduct) (h : r ∈ data) :
    productsByPriceRange data minPrice maxPrice =
      (data.filter (priceInRange minPrice maxPrice)).mapM transformProduct? ∧
    (r ∈ data.filter (priceInRange minPrice maxPrice) ↔
      (minPrice ≤ rawPrice r ∧ rawPrice r ≤ maxPrice)) ∧
    (∀ p, transformProduct? r = some p → p.price = rawPrice r) := by
  refine ⟨rfl, ?_, fun p hp => transformProduct_price_eq r p hp⟩
  rw [List.mem_filter]
  simp [h, priceInRange]

/-- C7 witness: the record priced exactly 100 is kept by the range
from 100 to 500. -/
theorem c7_witness :
    cxFlagged ∈ List.filter (priceInRange 100 500) [cxFlagged] :=
  ((c7_price_range_inclusive [cxFlagged] 100 500 cxFlagged
    (List.mem_singleton.mpr rfl)).2.1).mpr (by decide)

end Norko

namespace Norko

/-- Modelled from the spec's filter semantics (sections 4.4 and 6), for
comparison against productsQuery only: every supplied field of the
filter object is applied, combined with AND; range bounds are inclusive
and skipped exactly when absent; category is a case-insensitive
substring test against the normalized product. -/
def specFilterPred (f : ProductFilter) (p : CanonicalProduct) : Bool :=
  (match f.category with
   | none => true
   | some c => strIncludes (lowerStr p.category) (lowerStr c)) &&
  (match f.minPrice with | none => true | some m => decide (m ≤ p.price)) &&
  (match f.maxPrice with | none => true | some m => decide (p.price ≤ m)) &&
  (match f.minWattage with | none => true | some m => decide (m ≤ p.specifications.wattage)) &&
  (match f.maxWattage with | none => true | some m => decide (p.specifications.wattage ≤ m))

/-- Modelled from the spec's words for the list operation (section 4.4):
normalize the catalog in ingestion order, keep the products satisfying
the conjunction of the supplied predicates, truncate to the first limit
elements.  For comparison against productsQuery only. -/
def specListQuery (data : List RawProduct) (first : Nat) (f : ProductFilter) :
    Option (List CanonicalProduct) := do
  let canon ← data.mapM transformProduct?
  pure ((canon.filter (specFilterPred f)).take first)

/-- The filter of the C8 counterexample: only maxPrice is supplied, with
value 0. -/
def c8Filter : ProductFilter := { maxPrice := some 0 }

/-- C8 counterexample: with maxPrice supplied as 0 over a catalog whose
one product is priced 100, the conjunction of the supplied predicates
per the spec keeps nothing, but the code treats the zero bound as absent
and returns the product, so the list operation does not return exactly
the products satisfying the supplied predicates. -/
theorem c8_counterexample_zero_bound_skipped :
    specListQuery [cxFlagged] 20 c8Filter = some [] ∧
    productsQuery [cxFlagged] 20 (some c8Filter) ≠ some [] ∧
    productsQuery [cxFlagged] 20 (some c8Filter) ≠ specListQuery [cxFlagged] 20 c8Filter := by
  decide

/-- The wattage predicate of the products resolver as a total function,
defined on records whose specifications block is present (getD makes it
total; it agrees with wattagePred? exactly on such records). -/
def wattagePredTotal (f : ProductFilter) (p : RawProduct) : Bool :=
  (!intTruthy f.minWattage ||
    decide (f.minWattage.getD 0 ≤ rawWattage ((p.components.specifications).getD []))) &&
  (!intTruthy f.maxWattage ||
    decide (rawWattage ((p.components.specifications).getD []) ≤ f.maxWattage.getD 0))

/-- The conjunction of the three stage predicates the code applies: each
one active only when its filter fields are truthy. -/
def codeFilterPred (f : ProductFilter) (p : RawProduct) : Bool :=
  (!strTruthy f.category || categoryPred (f.category.getD "") p) &&
  pricePred f p && wattagePredTotal f p

/-- On a record with a specifications block the throwing wattage
predicate agrees with the total one. -/
theorem wattagePred_eq_total (f : ProductFilter) (p : RawProduct)
    (hs : (p.components.specifications).isSome = true) :
    wattagePred? f p = some (wattagePredTotal f p) := by
  obtain ⟨chunks, hc⟩ := Option.isSome_iff_exists.mp hs
  simp [wattagePred?, wattagePredTotal, hc]

/-- Composing three filters equals filtering by their conjunction. -/
theorem filter_three (c p w : α → Bool) (l : List α) :
    ((l.filter c).filter p).filter w = l.filter (fun a => c a && p a && w a) := by
  simp only [List.filter_filter]
  exact List.filter_congr (fun a _ => by cases c a <;> cases p a <;> cases w a <;> rfl)

/-- C8 amended: the list operation returns exactly the normalized images
of the records satisfying the conjunction of the supplied filter
predicates, in ingestion order, truncated to the first limit elements,
where a predicate counts as supplied only when its field is truthy: a
bound of 0 or an empty category string is treated as absent.  Stated for
catalogs whose records all carry a specifications block whenever a
wattage bound is active, since the wattage predicate throws otherwise. -/
theorem c8_amended_truthy_filter_conjunction (data : List RawProduct) (first : Nat)
    (f : ProductFilter)
    (h : (intTruthy f.minWattage || intTruthy f.maxWattage) = true →
      ∀ r ∈ data, (r.components.specifications).isSome = true) :
    productsQuery data first (some f) =
      ((data.filter (codeFilterPred f)).take first).mapM transformProduct? := by
  have hsplit : ∀ l : List RawProduct,
      l.filter (codeFilterPred f) =
        ((l.filter (fun p => !strTruthy f.category ||
            categoryPred (f.category.getD "") p)).filter (pricePred f)).filter
          (wattagePredTotal f) := by
    intro l
    rw [filter_three]
    rfl
  have hA : ∀ l : List RawProduct,
      (if strTruthy f.category then l.filter (categoryPred (f.category.getD "")) else l) =
        l.filter (fun p => !strTruthy f.category || categoryPred (f.category.getD "") p) := by
    intro l
    cases hg : strTruthy f.category <;> simp
  have hB : ∀ l : List RawProduct,
      (if (ratTruthy f.minPrice || ratTruthy f.maxPrice) then l.filter (pricePred f) else l) =
        l.filter (pricePred f) := by
    intro l
    cases hg : (ratTruthy f.minPrice || ratTruthy f.maxPrice) with
    | false =>
      obtain ⟨ha, hb⟩ := Bool.or_eq_false_iff.mp hg
      have hpp : pricePred f = fun _ => true := by
        funext q
        simp [pricePred, ha, hb]
      simp [hpp]
    | true => simp
  have hsub2 : ∀ r ∈ (if (ratTruthy f.minPrice || ratTruthy f.maxPrice) then
      (if strTruthy f.category then
        data.filter (categoryPred (f.category.getD "")) else data).filter (pricePred f)
    else (if strTruthy f.category then
        data.filter (categoryPred (f.category.getD "")) else data)), r ∈ data := by
    intro r hr
    split_ifs at hr <;> (try simp only [List.mem_filter] at hr) <;> tauto
  simp only [productsQuery]
  cases hg3 : (intTruthy f.minWattage || intTruthy f.maxWattage) with
  | false =>
    simp only [Bool.false_eq_true, if_false]
    obtain ⟨ha, hb⟩ := Bool.or_eq_false_iff.mp hg3
    have hww : wattagePredTotal f = fun _ => true := by
      funext q
      simp [wattagePredTotal, ha, hb]
    rw [hsplit, hww, List.filter_true, hB, hA]
    rfl
  | true =>
    rw [if_pos rfl,
      filterSome_eq_filter (wattagePred? f) (wattagePredTotal f) _
        (fun a ha => wattagePred_eq_total f a (h hg3 a (hsub2 a ha))),
      hsplit, hB, hA]
    rfl

/-- The fully-truthy filter used by the C8 witness. -/
def c8WitnessFilter : ProductFilter :=
  { category := some "panel", minPrice := some 50, maxPrice := some 500,
    minWattage := some 100, maxWattage := some 1000 }

/-- C8 amended witness: instantiated on the one-product catalog with all
five filter fields truthy. -/
theorem c8_amended_witness :
    productsQuery [cxFlagged] 20 (some c8WitnessFilter) =
      (([cxFlagged].filter (codeFilterPred c8WitnessFilter)).take 20).mapM transformProduct? :=
  c8_amended_truthy_filter_conjunction [cxFlagged] 20 c8WitnessFilter (fun _ => by decide)

/-- The products resolver only inspects its filter through the three
truthiness gates and the three stage predicates, so agreement on those
implies agreement of the results. -/
theorem productsQuery_congr (data : List RawProduct) (first : Nat) (f g : ProductFilter)
    (h1 : strTruthy f.category = strTruthy g.category)
    (h1b : categoryPred (f.category.getD "") = categoryPred (g.category.getD ""))
    (h2 : (ratTruthy f.minPrice || ratTruthy f.maxPrice) =
      (ratTruthy g.minPrice || ratTruthy g.maxPrice))
    (h2b : pricePred f = pricePred g)
    (h3 : (intTruthy f.minWattage || intTruthy f.maxWattage) =
      (intTruthy g.minWattage || intTruthy g.maxWattage))
    (h3b : wattagePred? f = wattagePred? g) :
    productsQuery data first (some f) = productsQuery data first (some g) := by
  simp only [productsQuery, h1, h1b, h2, h2b, h3, h3b]

/-- C9: a numeric bound supplied as 0 is falsy, so the products resolver
treats it exactly as an absent bound: replacing a zero bound by an
omitted one, in any of the four numeric bound fields, leaves the result
unchanged for every catalog, limit and accompanying filter fields; in
particular a zero upper bound excludes nothing. -/
theorem c9_zero_bound_same_as_absent (data : List RawProduct) (first : Nat)
    (f : ProductFilter) :
    (productsQuery data first (some { f with maxPrice := some 0 }) =
      productsQuery data first (some { f with maxPrice := none })) ∧
    (productsQuery data first (some { f with minPrice := some 0 }) =
      productsQuery data first (some { f with minPrice := none })) ∧
    (productsQuery data first (some { f with maxWattage := some 0 }) =
      productsQuery data first (some { f with maxWattage := none })) ∧
    (productsQuery data first (some { f with minWattage := some 0 }) =
      productsQuery data first (some { f with minWattage := none })) := by
  refine ⟨?_, ?_, ?_, ?_⟩
  · exact productsQuery_congr data first _ _ rfl rfl
      (by simp [ratTruthy]) (by funext q; simp [pricePred, ratTruthy]) rfl rfl
  · exact productsQuery_congr data first _ _ rfl rfl
      (by simp [ratTruthy]) (by funext q; simp [pricePred, ratTruthy]) rfl rfl
  · exact productsQuery_congr data first _ _ rfl rfl rfl rfl
      (by simp [intTruthy]) (by funext q; simp [wattagePred?, intTruthy])
  · exact productsQuery_congr data first _ _ rfl rfl rfl rfl
      (by simp [intTruthy]) (by funext q; simp [wattagePred?, intTruthy])

/-- C10: a raw record with zero variants is not rejected by normalization
(its component blocks being present, which transformProduct dereferences
regardless of variants) and no variant is fabricated for it: the
normalized product has an empty variants sequence, price 0 and currency
"GBP". -/
theorem c10_zero_variants_price_zero_gbp (r : RawProduct)
    (hd : (r.components.description).isSome = true)
    (hs : (r.components.specifications).isSome = true)
    (hf : (r.components.features).isSome = true)
    (hi : (r.components.productImages).isSome = true)
    (hv : r.variants = []) :
    ∃ p, transformProduct? r = some p ∧ p.variants = [] ∧ p.price = 0 ∧
      p.currency = "GBP" := by
  obtain ⟨chunks, hcs⟩ := Option.isSome_iff_exists.mp hs
  obtain ⟨desc, hcd⟩ := Option.isSome_iff_exists.mp hd
  obtain ⟨feats, hcf⟩ := Option.isSome_iff_exists.mp hf
  obtain ⟨imgs, hci⟩ := Option.isSome_iff_exists.mp hi
  cases hp : transformProduct? r with
  | none => simp [transformProduct?, hcs, hcd, hcf, hci] at hp
  | some p =>
    have hp2 := hp
    simp only [transformProduct?, hcs, hcd, hcf, hci, Option.bind_eq_bind,
      Option.some_bind, Option.pure_def, Option.some.injEq] at hp2
    subst hp2
    exact ⟨_, rfl, by simp [hv], by simp [rawPrice, hv], by simp [hv, jsOrStr]⟩

/-- A well-formed record with an empty variants array. -/
def cxNoVariants : RawProduct :=
  { id := "p4", name := "Heater Four", path := "/p4", category := "Panel Heaters"
    components := cxComponents
    variants := [] }

/-- C10 witness: instantiated on the zero-variant record. -/
theorem c10_witness :
    ∃ p, transformProduct? cxNoVariants = some p ∧ p.variants = [] ∧ p.price = 0 ∧
      p.currency = "GBP" :=
  c10_zero_variants_price_zero_gbp cxNoVariants rfl rfl rfl rfl rfl

end Norko
